import Mathlib

/-!
Verification model of the videolib high-level video access layer
(src/python/StreamReader.py and src/python/ClipReader.py).

The StreamReader part models the live-capture rotation pipeline: per-frame
polling (getNewFrame), segment-boundary detection, the single-slot
ThreadedFileMover (relocation plus clip-index commit), flush and close.
External collaborators (the native capture engine, the filesystem move, the
clip index) are represented by an explicit event trace and by outcome
oracles; all per-session mutable state is an explicit record.

The ClipReader part models the dual-cursor playback facade: lazy allocation
of the sequential and random decode handles, the shared first handle, the
divergence-reseek logic of getNextFrame/getPrevFrame, seek, getFrameAt and
the memoized duration / timestamp list.
-/

/-- ASCII lower-casing of a string, one character at a time; models the
Python `str.lower()` call applied to segment file names (which are ASCII). -/
def lowerStr (s : String) : String := ⟨s.data.map Char.toLower⟩

/-- Membership of an ASCII uppercase letter, matching the characters that
`Char.toLower` actually changes. -/
def hasUpperAscii (s : String) : Bool :=
  s.data.any (fun c => 65 ≤ c.toNat && c.toNat ≤ 90)

/-- Model of `os.path.join` for POSIX paths as used by the mover: the right
operand is always a relative name, the left may carry a trailing slash (the
recording/storage directories are stored with `os.sep` appended). -/
def pjoin (a b : String) : String :=
  if a = "" then b
  else if a.data.getLast? = some '/' then a ++ b
  else a ++ "/" ++ b

/-- Model of `os.path.split(p)[1]`: the part of the path after the last
slash. -/
def splitFilename (p : String) : String :=
  ⟨(p.data.reverse.takeWhile (fun c => c ≠ '/')).reverse⟩

/-- Model of the Python slice `s[:n]`. -/
def strTake (s : String) (n : Nat) : String := ⟨s.data.take n⟩

/-- Data carried by one polled frame, as reported by the native capture
engine in `StreamFrameStruct` (the fields `getNewFrame` actually reads). -/
structure FrameData where
  ms : Int
  filename : String
  isRunning : Bool
  deriving Repr, DecidableEq

/-- Snapshot taken by `StreamReader.ThreadedFileMover.__init__`: every
owner field that `run`/`addFileToDb` read is copied by value at submission
time.  `moveOk` is the externally determined outcome of the file
relocation (success of `shutil.move` / `move_recorded_file`). -/
structure MoveJob where
  curFilename : String
  storageDir : String
  curDirPath : String
  recordDir : String
  prevDirPath : String
  prevFilename : String
  procSize : Int × Int
  curStartMs : Int
  curLastMs : Int
  recordInMemory : Bool
  hasClipManager : Bool
  locationName : String
  moveOk : Bool
  deriving Repr, DecidableEq

/-- Observable external effects of the stream session: mover-thread starts,
file relocations, failure-callback invocations, clip-index commits, output
flushes and capture-handle releases. -/
inductive Ev where
  | startJob (j : MoveJob)
  | fileMoved (src dst : String)
  | moveFailed (path : String)
  | commit (path loc : String) (startMs endMs : Int) (prevPath : String)
      (w h : Int)
  | flushOutput
  | freeStream
  deriving Repr, DecidableEq

/-- Mutable state of a `StreamReader`, as set by `_initVariables` plus the
mover-thread slot (`_moverThread`).  `jobCount` counts submitted jobs so
that the external relocation-outcome oracle can be indexed. -/
structure SRState where
  stream : Bool
  isRunning : Bool
  prevFilename : String
  prevDirPath : String
  curFilePath : String
  curFilename : String
  curDirPath : String
  curStartMs : Int
  curLastMs : Int
  moverThread : Option MoveJob
  jobCount : Nat
  deriving Repr, DecidableEq

/-- Per-session constants fixed at `StreamReader.__init__`/`open` time,
plus the oracle `moveOk` giving the outcome of the n-th submitted file
relocation. -/
structure SRConfig where
  hasClipManager : Bool
  storageDir : String
  recordDir : String
  locationName : String
  recordInMemory : Bool
  procSize : Int × Int
  moveOk : Nat → Bool

/-- Relative path of the predecessor file, as computed at the start of
`ThreadedFileMover.addFileToDb`. -/
def jobPrevFile (j : MoveJob) : String :=
  if j.prevFilename = "" then "" else pjoin j.prevDirPath j.prevFilename

/-- Events of `ThreadedFileMover.run`: attempt the relocation of the
finalized segment into storage (lower-casing the destination file name) and
invoke the move-failed callback when the move raises. -/
def MoveJob.run (j : MoveJob) : List Ev :=
  if j.curFilename = "" ∨ j.hasClipManager = false then []
  else
    let targetFolder := pjoin j.storageDir j.curDirPath
    let src := pjoin j.recordDir j.curFilename
    let dst := pjoin targetFolder (lowerStr j.curFilename)
    if j.moveOk then [Ev.fileMoved src dst]
    else [Ev.moveFailed (pjoin j.curDirPath j.curFilename)]

/-- Events of `ThreadedFileMover.addFileToDb`: commit the segment metadata
to the clip index under the lower-cased relative path. -/
def MoveJob.addFileToDbEvs (j : MoveJob) : List Ev :=
  [Ev.commit (pjoin j.curDirPath (lowerStr j.curFilename)) j.locationName
    j.curStartMs j.curLastMs (jobPrevFile j) j.procSize.1 j.procSize.2]

/-- Model of `StreamReader._finalizeMoverThread`: when a mover thread
exists, either leave it running (non-blocking call on a live thread) or
wait for it and run its index commit, clearing the slot.  `alive` is the
externally determined result of `isAlive()`.  The relocation events of the
job are accounted at this point: by the time the join returns they have
happened. -/
def finalizeMoverThread (s : SRState) (blockIfRunning alive : Bool) :
    SRState × List Ev :=
  match s.moverThread with
  | none => (s, [])
  | some j =>
    if alive ∧ blockIfRunning = false then (s, [])
    else ({ s with moverThread := none }, MoveJob.run j ++ MoveJob.addFileToDbEvs j)

/-- Model of `StreamReader._terminateMoverThread`. -/
def terminateMoverThread (s : SRState) : SRState × List Ev :=
  finalizeMoverThread s true true

/-- Snapshot of the current segment into a `MoveJob`, as performed by
`ThreadedFileMover.__init__`. -/
def mkMoveJob (cfg : SRConfig) (s : SRState) : MoveJob :=
  { curFilename := s.curFilename
    storageDir := cfg.storageDir
    curDirPath := s.curDirPath
    recordDir := cfg.recordDir
    prevDirPath := s.prevDirPath
    prevFilename := s.prevFilename
    procSize := cfg.procSize
    curStartMs := s.curStartMs
    curLastMs := s.curLastMs
    recordInMemory := cfg.recordInMemory
    hasClipManager := cfg.hasClipManager
    locationName := cfg.locationName
    moveOk := cfg.moveOk s.jobCount }

/-- Model of `StreamReader._addFileToDb`: finalize any previously started
mover thread (blocking), then submit a new mover thread for the current
segment. -/
def addFileToDb (cfg : SRConfig) (s : SRState) : SRState × List Ev :=
  if s.curFilename = "" ∨ cfg.hasClipManager = false then (s, [])
  else
    let t := terminateMoverThread s
    let j := mkMoveJob cfg t.1
    ({ t.1 with moverThread := some j, jobCount := t.1.jobCount + 1 },
      t.2 ++ [Ev.startJob j])

/-- Guard of `StreamReader.flush`: flush only when no target time is given
or the target time falls at or after the current segment's start. -/
def msNeededOk (s : SRState) (msNeeded : Option Int) : Bool :=
  match msNeeded with
  | none => true
  | some m => decide (s.curStartMs ≤ m)

/-- Model of `StreamReader.flush`. -/
def flush (s : SRState) (msNeeded : Option Int) : List Ev :=
  if s.stream && s.isRunning && msNeededOk s msNeeded then [Ev.flushOutput]
  else []

/-- Model of `StreamReader._initVariables` (the mover-thread slot is not
touched by it in the source). -/
def initVariables (s : SRState) : SRState :=
  { s with stream := false, isRunning := false, prevFilename := "",
           prevDirPath := "", curFilePath := "", curFilename := "",
           curDirPath := "", curStartMs := 0, curLastMs := 0 }

/-- Model of `StreamReader.close`: flush, mark not running, release the
capture handle, finalize the in-progress segment via the mover, drain the
mover, then reset all session variables. -/
def close (cfg : SRConfig) (s : SRState) : SRState × List Ev :=
  let e1 := flush s none
  let s1 := { s with isRunning := false }
  let e2 := if s1.stream then [Ev.freeStream] else []
  let t := if s1.curFilename ≠ "" then addFileToDb cfg s1 else (s1, [])
  let u := terminateMoverThread t.1
  (initVariables u.1, e1 ++ e2 ++ t.2 ++ u.2)

/-- External inputs consumed by one `getNewFrame` call: the polled frame
(if any), the `is_running` answer used when no frame arrived, and whether
the mover thread is still alive at the non-blocking finalize check. -/
structure PollInput where
  res : Option FrameData
  runningIfNone : Bool
  moverAlive : Bool
  deriving Repr, DecidableEq

/-- Segment-transition block of `StreamReader.getNewFrame`: when the
adapter-reported file name differs from the tracked one, submit the
superseded segment to the mover and begin tracking the new segment
(previous-file fields, base name, lower-cased directory, start
timestamp). -/
def transitionStep (cfg : SRConfig) (s1 : SRState) (r : FrameData) :
    SRState × List Ev :=
  if cfg.hasClipManager = true ∧ r.filename ≠ s1.curFilePath then
    let t0 := { s1 with curFilePath := r.filename }
    let t := addFileToDb cfg t0
    let fname := splitFilename r.filename
    ({ t.1 with prevFilename := t.1.curFilename,
                prevDirPath := t.1.curDirPath,
                curFilename := fname,
                curDirPath := lowerStr (pjoin cfg.locationName (strTake fname 5)),
                curStartMs := r.ms }, t.2)
  else (s1, [])

/-- Model of `StreamReader.getNewFrame`: detect unexpected stop (closing
the session), detect a segment-file transition (submitting the superseded
segment to the mover and starting a new segment), update the segment's last
timestamp, and opportunistically finalize a completed mover thread. -/
def getNewFrame (cfg : SRConfig) (s : SRState) (inp : PollInput) :
    SRState × List Ev × Option FrameData :=
  if s.stream = false ∨ s.isRunning = false then (s, [], none)
  else
    let isRun := match inp.res with
      | none => inp.runningIfNone
      | some r => r.isRunning
    let p := if isRun then (s, ([] : List Ev)) else close cfg s
    match inp.res with
    | none => (p.1, p.2, none)
    | some r =>
      let q := transitionStep cfg p.1 r
      let s3 := { q.1 with curLastMs := r.ms }
      let u := finalizeMoverThread s3 false inp.moverAlive
      (u.1, p.2 ++ q.2 ++ u.2, some r)

/-- State of a freshly constructed and successfully opened `StreamReader`. -/
def srOpen : SRState :=
  { stream := true, isRunning := true, prevFilename := "", prevDirPath := "",
    curFilePath := "", curFilename := "", curDirPath := "", curStartMs := 0,
    curLastMs := 0, moverThread := none, jobCount := 0 }

/-- Drive a session through a list of polls. -/
def pollMany (cfg : SRConfig) : SRState → List PollInput → SRState × List Ev
  | s, [] => (s, [])
  | s, i :: rest =>
    let r := getNewFrame cfg s i
    let q := pollMany cfg r.1 rest
    (q.1, r.2.1 ++ q.2)

/-- Full observable trace of a session: open, poll each input, close. -/
def sessionTrace (cfg : SRConfig) (inputs : List PollInput) : List Ev :=
  let p := pollMany cfg srOpen inputs
  p.2 ++ (close cfg p.1).2

/-- Poll input for a delivered frame (the adapter is running). -/
def framePoll (f : FrameData) (alive : Bool) : PollInput :=
  { res := some f, runningIfNone := true, moverAlive := alive }

/-- Trace of a session that polls exactly the given frames (each paired
with the liveness of the mover thread at that poll) and then closes. -/
def frameSession (cfg : SRConfig) (inputs : List (FrameData × Bool)) : List Ev :=
  sessionTrace cfg (inputs.map fun p => framePoll p.1 p.2)

/-- Decode handle of the native clip engine (one `FfMpegClipReader` whose
`open` succeeded): an allocation identity plus the index of the next frame
the sequential decode position would deliver. -/
structure Handle where
  hid : Nat
  idx : Nat
  deriving Repr, DecidableEq

/-- Per-clip external data: the timestamps of the clip's frames, the
duration reported by the native engine, and the oracle telling whether the
n-th handle allocation (native `open_clip`) succeeds. -/
structure ClipCfg where
  clip : List Int
  durationMs : Int
  allocOk : Nat → Bool

/-- Model of the native `get_next_frame` on one decode handle: deliver the
frame at the current position and advance, or report end-of-stream. -/
def subNext (cfg : ClipCfg) (h : Handle) : Option Int × Handle :=
  match cfg.clip.get? h.idx with
  | some m => (some m, { h with idx := h.idx + 1 })
  | none => (none, h)

/-- Model of the native `get_prev_frame`: deliver the frame before the one
last delivered and step the position back. -/
def subPrev (cfg : ClipCfg) (h : Handle) : Option Int × Handle :=
  if 2 ≤ h.idx then
    match cfg.clip.get? (h.idx - 2) with
    | some m => (some m, { h with idx := h.idx - 1 })
    | none => (none, h)
  else (none, h)

/-- Index of the frame the native engine positions to for a given
millisecond offset: the last frame at or before the offset, or the first
frame when the offset precedes the clip. -/
def seekIdx (clip : List Int) (ms : Int) : Nat :=
  let cnt := (clip.filter (fun m => decide (m ≤ ms))).length
  if cnt = 0 then 0 else cnt - 1

/-- Model of the native `get_frame_at` (which also backs
`FfMpegClipReader.seek`): reposition the handle to the requested offset and
deliver that frame; fails only on an empty clip. -/
def subFrameAt (cfg : ClipCfg) (h : Handle) (ms : Int) : Option Int × Handle :=
  if cfg.clip.isEmpty then (none, h)
  else
    let i := seekIdx cfg.clip ms
    (cfg.clip.get? i, { h with idx := i + 1 })

/-- Mutable state of a `ClipReader` facade: the three handle slots, the
playback position state and the memoized duration / timestamp list.
`nextHid` counts successful handle allocations (model bookkeeping for
handle identity). -/
structure CRState where
  seqReader : Option Handle
  randReader : Option Handle
  firstReader : Option Handle
  prevMs : Int
  readerPrevMs : Int
  isDone : Bool
  duration : Option Int
  msList : Option (List Int)
  nextHid : Nat
  deriving Repr, DecidableEq

/-- State of a freshly constructed `ClipReader`. -/
def crInit : CRState :=
  { seqReader := none, randReader := none, firstReader := none,
    prevMs := -1, readerPrevMs := -1, isDone := false, duration := none,
    msList := none, nextHid := 0 }

/-- Model of `ClipReader._reset`: close all handles and restore the initial
facade state (the allocation counter is model bookkeeping and persists). -/
def resetState (s : CRState) : CRState :=
  { crInit with nextHid := s.nextHid }

/-- Model of `ClipReader._allocReader`: create a child reader and open it;
on failure no handle results. -/
def allocReader (cfg : ClipCfg) (s : CRState) : Option Handle × CRState :=
  if cfg.allocOk s.nextHid then
    (some { hid := s.nextHid, idx := 0 }, { s with nextHid := s.nextHid + 1 })
  else (none, s)

/-- Model of `ClipReader.open`: reset, then allocate the shared first
handle; reports success. -/
def openClip (cfg : ClipCfg) (s : CRState) : Bool × CRState :=
  let r := allocReader cfg (resetState s)
  (r.1.isSome, { r.2 with firstReader := r.1 })

/-- Model of `ClipReader._getSeqReader`: reuse the sequential handle, else
claim the shared first handle, else allocate a new one. -/
def getSeqReader (cfg : ClipCfg) (s : CRState) : Option Handle × CRState :=
  match s.seqReader with
  | some h => (some h, s)
  | none =>
    match s.firstReader with
    | some h => (some h, { s with seqReader := some h, firstReader := none })
    | none =>
      let r := allocReader cfg s
      (r.1, { r.2 with seqReader := r.1 })

/-- Model of `ClipReader._getRandReader`: reuse the random handle, else
claim the shared first handle, else allocate a new one. -/
def getRandReader (cfg : ClipCfg) (s : CRState) : Option Handle × CRState :=
  match s.randReader with
  | some h => (some h, s)
  | none =>
    match s.firstReader with
    | some h => (some h, { s with randReader := some h, firstReader := none })
    | none =>
      let r := allocReader cfg s
      (r.1, { r.2 with randReader := r.1 })

/-- Model of `ClipReader._getAnyReader`: the first existing handle among
first, random, sequential, without mutation. -/
def getAnyReader (s : CRState) : Option Handle :=
  match s.firstReader with
  | some h => some h
  | none =>
    match s.randReader with
    | some h => some h
    | none => s.seqReader

/-- Model of `ClipReader.seek`: position the sequential handle at the
requested offset, recording the delivered timestamp in both position
fields, or clear them on failure. -/
def seek (cfg : ClipCfg) (s : CRState) (ms : Int) : Option Int × CRState :=
  let r := getSeqReader cfg s
  match r.1 with
  | none => (none, r.2)
  | some h =>
    let a := subFrameAt cfg h ms
    let s2 := { r.2 with seqReader := some a.2 }
    match a.1 with
    | none => (none, { s2 with readerPrevMs := -1, prevMs := -1 })
    | some m => (some m, { s2 with readerPrevMs := m, prevMs := m })

/-- Model of `ClipReader.getNextFrame`: reseek on position divergence, then
advance the sequential handle; on end-of-stream set the done flag and clear
the position. -/
def crGetNextFrame (cfg : ClipCfg) (s : CRState) : Option Int × CRState :=
  let s0 := if s.readerPrevMs ≠ s.prevMs then (seek cfg s s.prevMs).2 else s
  let r := getSeqReader cfg s0
  match r.1 with
  | none => (none, r.2)
  | some h =>
    let a := subNext cfg h
    let s2 := { r.2 with seqReader := some a.2 }
    match a.1 with
    | none => (none, { s2 with readerPrevMs := -1, prevMs := -1, isDone := true })
    | some m => (some m, { s2 with readerPrevMs := m, prevMs := m })

/-- Model of `ClipReader.getPrevFrame`: reseek on position divergence, then
step the sequential handle back; on success clear the done flag. -/
def crGetPrevFrame (cfg : ClipCfg) (s : CRState) : Option Int × CRState :=
  let s0 := if s.readerPrevMs ≠ s.prevMs then (seek cfg s s.prevMs).2 else s
  let r := getSeqReader cfg s0
  match r.1 with
  | none => (none, r.2)
  | some h =>
    let a := subPrev cfg h
    let s2 := { r.2 with seqReader := some a.2 }
    match a.1 with
    | none => (none, { s2 with readerPrevMs := -1, prevMs := -1 })
    | some m => (some m, { s2 with isDone := false, readerPrevMs := m, prevMs := m })

/-- Model of `ClipReader.getFrameAt`: fetch a frame through the random
handle, never touching the sequential position state. -/
def getFrameAt (cfg : ClipCfg) (s : CRState) (ms : Int) : Option Int × CRState :=
  let r := getRandReader cfg s
  match r.1 with
  | none => (none, r.2)
  | some h =>
    let a := subFrameAt cfg h ms
    let s2 := { r.2 with randReader := some a.2 }
    match a.1 with
    | none => (none, s2)
    | some m => (some m, s2)

/-- Model of `ClipReader.getDuration`: memoize the duration reported by any
already-open handle. -/
def getDuration (cfg : ClipCfg) (s : CRState) : Int × CRState :=
  match s.duration with
  | some d => (d, s)
  | none =>
    match getAnyReader s with
    | none => (-1, s)
    | some _ => (cfg.durationMs, { s with duration := some cfg.durationMs })

/-- Model of `ClipReader.getMsList`: memoize the frame timestamp list,
computed through the random handle (an empty cached list is not treated as
memoized, mirroring the Python truthiness test). -/
def crGetMsList (cfg : ClipCfg) (s : CRState) : List Int × CRState :=
  match s.msList with
  | some l =>
    if l = [] then
      let r := getRandReader cfg s
      match r.1 with
      | none => ([], r.2)
      | some _ => (cfg.clip, { r.2 with msList := some cfg.clip })
    else (l, s)
  | none =>
    let r := getRandReader cfg s
    match r.1 with
    | none => ([], r.2)
    | some _ => (cfg.clip, { r.2 with msList := some cfg.clip })

/-- Model of `ClipReader.markDone`. -/
def markDone (s : CRState) : CRState := { s with isDone := true }

/-- Cursor mode requested from the cursor pair. -/
inductive Mode where
  | seq
  | rand
  deriving Repr, DecidableEq

/-- Run a sequence of accessor calls (the lazily allocating
`_getSeqReader`/`_getRandReader` entry points) against the facade state. -/
def runModes (cfg : ClipCfg) : CRState → List Mode → CRState
  | s, [] => s
  | s, Mode.seq :: rest => runModes cfg (getSeqReader cfg s).2 rest
  | s, Mode.rand :: rest => runModes cfg (getRandReader cfg s).2 rest

/-- Handle slot addressed by a cursor mode. -/
def modeSlot (m : Mode) (s : CRState) : Option Handle :=
  match m with
  | Mode.seq => s.seqReader
  | Mode.rand => s.randReader

lemma toLower_ne_of_upper (c : Char) (h1 : 65 ≤ c.toNat) (h2 : c.toNat ≤ 90) :
    Char.toLower c ≠ c := by
  intro heq
  have h3 : (Char.toLower c).toNat = c.toNat + 32 := by
    have hv : (c.toNat + 32).isValidChar := by left; omega
    show (let n := c.toNat; if n ≥ 65 ∧ n ≤ 90 then Char.ofNat (n + 32) else c).toNat
        = c.toNat + 32
    simp only []
    rw [if_pos ⟨h1, h2⟩, Char.ofNat, dif_pos hv]
    simp [Char.ofNatAux, Char.toNat, UInt32.toNat]
  rw [heq] at h3
  omega

lemma lowerStr_ne_of_upper (s : String) (h : hasUpperAscii s = true) :
    lowerStr s ≠ s := by
  intro heq
  have hdata : s.data.map Char.toLower = s.data := congrArg String.data heq
  rcases List.any_eq_true.mp h with ⟨c, hc, hup⟩
  rcases List.getElem_of_mem hc with ⟨i, hi, hgi⟩
  have hmap : (s.data.map Char.toLower).get? i = (s.data.get? i).map Char.toLower :=
    List.get?_map _ _ _
  rw [hdata] at hmap
  rw [List.get?_eq_getElem?, List.getElem?_eq_getElem hi, hgi] at hmap
  have : Char.toLower c = c := by
    simpa using hmap.symm
  simp only [Bool.and_eq_true, decide_eq_true_eq] at hup
  exact toLower_ne_of_upper c hup.1 hup.2 this

lemma string_append_left_cancel (a b c : String) (h : a ++ b = a ++ c) : b = c := by
  have hd : a.data ++ b.data = a.data ++ c.data := by
    have := congrArg String.data h
    simpa [String.data_append] using this
  exact String.ext_iff.mpr (List.append_cancel_left hd)

lemma pjoin_right_ne (d s t : String) (h : s ≠ t) : pjoin d s ≠ pjoin d t := by
  unfold pjoin
  by_cases hd : d = ""
  · simpa [hd] using h
  · simp only [hd, if_false]
    by_cases hsl : d.data.getLast? = some '/'
    · simp only [hsl, if_true]
      intro he
      exact h (string_append_left_cancel _ _ _ he)
    · simp only [hsl, if_false]
      intro he
      exact h (string_append_left_cancel _ _ _ he)

/-- C10: on relocation failure the callback receives the directory path
joined with the file name in its original case, while a successful run
writes the destination file and commits to the index under the lower-cased
file name; for a file name containing an uppercase letter the
failure-callback path therefore differs from the committed path. -/
theorem C10_failure_path_case (j : MoveJob) (hn : j.curFilename ≠ "")
    (hc : j.hasClipManager = true)
    (hu : hasUpperAscii j.curFilename = true) :
    (j.moveOk = false →
      MoveJob.run j = [Ev.moveFailed (pjoin j.curDirPath j.curFilename)])
    ∧ (j.moveOk = true →
      MoveJob.run j
        = [Ev.fileMoved (pjoin j.recordDir j.curFilename)
            (pjoin (pjoin j.storageDir j.curDirPath) (lowerStr j.curFilename))])
    ∧ MoveJob.addFileToDbEvs j
        = [Ev.commit (pjoin j.curDirPath (lowerStr j.curFilename)) j.locationName
            j.curStartMs j.curLastMs (jobPrevFile j) j.procSize.1 j.procSize.2]
    ∧ pjoin j.curDirPath j.curFilename
        ≠ pjoin j.curDirPath (lowerStr j.curFilename) := by
  refine ⟨?_, ?_, rfl, ?_⟩
  · intro hf
    simp [MoveJob.run, hn, hc, hf]
  · intro hok
    simp [MoveJob.run, hn, hc, hok]
  · exact pjoin_right_ne j.curDirPath j.curFilename (lowerStr j.curFilename)
      (fun hx => lowerStr_ne_of_upper _ hu hx.symm)

theorem C10_failure_path_case_witness :
    MoveJob.run
        { curFilename := "CLIP001.mp4", storageDir := "/st/", curDirPath := "cam/clip0",
          recordDir := "/rec/", prevDirPath := "", prevFilename := "",
          procSize := (320, 240), curStartMs := 0, curLastMs := 200,
          recordInMemory := false, hasClipManager := true, locationName := "cam",
          moveOk := false }
      = [Ev.moveFailed "cam/clip0/CLIP001.mp4"] := by
  have h := C10_failure_path_case
    { curFilename := "CLIP001.mp4", storageDir := "/st/", curDirPath := "cam/clip0",
      recordDir := "/rec/", prevDirPath := "", prevFilename := "",
      procSize := (320, 240), curStartMs := 0, curLastMs := 200,
      recordInMemory := false, hasClipManager := true, locationName := "cam",
      moveOk := false } (by decide) rfl (by decide)
  simpa using h.1 rfl

/-- Configuration whose every file relocation fails, used to exercise the
failure path of the mover. -/
def cfgAllMovesFail : SRConfig :=
  { hasClipManager := true, storageDir := "/st/", recordDir := "/rec/",
    locationName := "cam", recordInMemory := false, procSize := (320, 240),
    moveOk := fun _ => false }

/-- Frames of the spec scenario: three frames of clip001 then a rollover to
clip002. -/
def framesClip001 : List (FrameData × Bool) :=
  [({ ms := 0, filename := "/rec/clip001.mp4", isRunning := true }, false),
   ({ ms := 100, filename := "/rec/clip001.mp4", isRunning := true }, false),
   ({ ms := 200, filename := "/rec/clip001.mp4", isRunning := true }, false),
   ({ ms := 300, filename := "/rec/clip002.mp4", isRunning := true }, false)]

/-- C1 counterexample: in a session whose relocation of clip001.mp4 fails,
the failure callback fires with the segment's relative path and yet the
clip index still receives a commit for that same segment, refuting the
claimed "commit if and only if relocation succeeded". -/
theorem C1_counterexample :
    Ev.moveFailed "cam/clip0/clip001.mp4"
        ∈ frameSession cfgAllMovesFail framesClip001
    ∧ Ev.commit "cam/clip0/clip001.mp4" "cam" 0 200 "" 320 240
        ∈ frameSession cfgAllMovesFail framesClip001 := by
  constructor <;> decide

/-- C1 amended: when relocation of a finalized segment fails the mover
invokes the failure callback with the segment's relative path, but the
index commit for the segment runs regardless of the relocation outcome
(the callback fires if and only if the move failed, while a commit is
always present). -/
theorem C1_move_failure_commit (j : MoveJob) (hn : j.curFilename ≠ "")
    (hc : j.hasClipManager = true) :
    ((Ev.moveFailed (pjoin j.curDirPath j.curFilename)
        ∈ MoveJob.run j ++ MoveJob.addFileToDbEvs j) ↔ j.moveOk = false)
    ∧ Ev.commit (pjoin j.curDirPath (lowerStr j.curFilename)) j.locationName
        j.curStartMs j.curLastMs (jobPrevFile j) j.procSize.1 j.procSize.2
        ∈ MoveJob.run j ++ MoveJob.addFileToDbEvs j := by
  cases hm : j.moveOk <;>
    simp [MoveJob.run, MoveJob.addFileToDbEvs, hn, hc, hm]

theorem C1_move_failure_commit_witness :
    Ev.moveFailed "cam/clip0/CLIP001.mp4"
        ∈ MoveJob.run
            { curFilename := "CLIP001.mp4", storageDir := "/st/",
              curDirPath := "cam/clip0", recordDir := "/rec/", prevDirPath := "",
              prevFilename := "", procSize := (320, 240), curStartMs := 0,
              curLastMs := 200, recordInMemory := false, hasClipManager := true,
              locationName := "cam", moveOk := false }
          ++ MoveJob.addFileToDbEvs
            { curFilename := "CLIP001.mp4", storageDir := "/st/",
              curDirPath := "cam/clip0", recordDir := "/rec/", prevDirPath := "",
              prevFilename := "", procSize := (320, 240), curStartMs := 0,
              curLastMs := 200, recordInMemory := false, hasClipManager := true,
              locationName := "cam", moveOk := false } := by
  have h := C1_move_failure_commit
    { curFilename := "CLIP001.mp4", storageDir := "/st/",
      curDirPath := "cam/clip0", recordDir := "/rec/", prevDirPath := "",
      prevFilename := "", procSize := (320, 240), curStartMs := 0,
      curLastMs := 200, recordInMemory := false, hasClipManager := true,
      locationName := "cam", moveOk := false } (by decide) rfl
  exact h.1.mpr rfl

/-- C7: for an open running session, `flush(msNeeded)` performs the
underlying output flush exactly when no target time is given or the target
time falls at or after the current segment's start. -/
theorem C7_flush_guard (s : SRState) (msNeeded : Option Int)
    (h1 : s.stream = true) (h2 : s.isRunning = true) :
    Ev.flushOutput ∈ flush s msNeeded
      ↔ (msNeeded = none ∨ ∃ m, msNeeded = some m ∧ s.curStartMs ≤ m) := by
  cases msNeeded with
  | none => simp [flush, msNeededOk, h1, h2]
  | some m =>
    by_cases hle : s.curStartMs ≤ m
    · simp [flush, msNeededOk, h1, h2, hle]
    · simp [flush, msNeededOk, h1, h2, hle]

theorem C7_flush_guard_witness :
    (Ev.flushOutput ∈ flush { srOpen with curStartMs := 100 } (some 150))
    ∧ Ev.flushOutput ∉ flush { srOpen with curStartMs := 100 } (some 50) := by
  constructor
  · exact (C7_flush_guard { srOpen with curStartMs := 100 } (some 150) rfl rfl).mpr
      (Or.inr ⟨150, rfl, by decide⟩)
  · intro hmem
    have h := (C7_flush_guard { srOpen with curStartMs := 100 } (some 50) rfl rfl).mp hmem
    rcases h with h | ⟨m, hm, hle⟩
    · exact Option.noConfusion h
    · cases Option.some.inj hm
      exact absurd hle (by decide)

lemma terminateMoverThread_fst_mover (s : SRState) :
    (terminateMoverThread s).1.moverThread = none := by
  cases h : s.moverThread <;>
    simp [terminateMoverThread, finalizeMoverThread, h]

lemma initVariables_idem (s : SRState) :
    initVariables (initVariables s) = initVariables s := rfl

attribute [ext] SRState

lemma close_of_closed (cfg : SRConfig) (w : SRState) (h1 : w.stream = false)
    (h2 : w.isRunning = false) (h3 : w.prevFilename = "")
    (h4 : w.prevDirPath = "") (h5 : w.curFilePath = "")
    (h6 : w.curFilename = "") (h7 : w.curDirPath = "")
    (h8 : w.curStartMs = 0) (h9 : w.curLastMs = 0)
    (h10 : w.moverThread = none) : close cfg w = (w, []) := by
  have hw : w = SRState.mk false false "" "" "" "" "" 0 0 none w.jobCount := by
    ext <;> simp [h1, h2, h3, h4, h5, h6, h7, h8, h9, h10]
  rw [hw]
  rfl

/-- C8: `close` on an already-closed session is a no-op: the state after a
first `close` has every session variable at its reset value and no mover
thread, and a second `close` emits no event and does not change the
state. -/
theorem C8_close_idempotent (cfg : SRConfig) (s : SRState) :
    close cfg (close cfg s).1 = ((close cfg s).1, [])
    ∧ (close cfg s).1.stream = false ∧ (close cfg s).1.isRunning = false
    ∧ (close cfg s).1.prevFilename = "" ∧ (close cfg s).1.prevDirPath = ""
    ∧ (close cfg s).1.curFilePath = "" ∧ (close cfg s).1.curFilename = ""
    ∧ (close cfg s).1.curDirPath = "" ∧ (close cfg s).1.curStartMs = 0
    ∧ (close cfg s).1.curLastMs = 0 ∧ (close cfg s).1.moverThread = none := by
  have hex : ∃ x, (close cfg s).1 = initVariables x := ⟨_, rfl⟩
  rcases hex with ⟨x, hx⟩
  have hm : (close cfg s).1.moverThread = none := by
    simp [close, initVariables, terminateMoverThread_fst_mover]
  refine ⟨?_, ?_, ?_, ?_, ?_, ?_, ?_, ?_, ?_, ?_, hm⟩
  · exact close_of_closed cfg _ (by rw [hx]; rfl) (by rw [hx]; rfl)
      (by rw [hx]; rfl) (by rw [hx]; rfl) (by rw [hx]; rfl) (by rw [hx]; rfl)
      (by rw [hx]; rfl) (by rw [hx]; rfl) (by rw [hx]; rfl) hm
  all_goals rw [hx]; rfl

lemma getRandReader_preserves (cfg : ClipCfg) (s : CRState) :
    (getRandReader cfg s).2.prevMs = s.prevMs
    ∧ (getRandReader cfg s).2.readerPrevMs = s.readerPrevMs
    ∧ (getRandReader cfg s).2.isDone = s.isDone
    ∧ (getRandReader cfg s).2.duration = s.duration
    ∧ (getRandReader cfg s).2.msList = s.msList
    ∧ (getRandReader cfg s).2.seqReader = s.seqReader := by
  cases h1 : s.randReader <;> cases h2 : s.firstReader <;>
    by_cases h3 : cfg.allocOk s.nextHid <;>
      simp [getRandReader, allocReader, h1, h2, h3]

lemma getSeqReader_preserves (cfg : ClipCfg) (s : CRState) :
    (getSeqReader cfg s).2.prevMs = s.prevMs
    ∧ (getSeqReader cfg s).2.readerPrevMs = s.readerPrevMs
    ∧ (getSeqReader cfg s).2.isDone = s.isDone
    ∧ (getSeqReader cfg s).2.duration = s.duration
    ∧ (getSeqReader cfg s).2.msList = s.msList
    ∧ (getSeqReader cfg s).2.randReader = s.randReader := by
  cases h1 : s.seqReader <;> cases h2 : s.firstReader <;>
    by_cases h3 : cfg.allocOk s.nextHid <;>
      simp [getSeqReader, allocReader, h1, h2, h3]

lemma getFrameAt_preserves (cfg : ClipCfg) (s : CRState) (ms : Int) :
    (getFrameAt cfg s ms).2.prevMs = s.prevMs
    ∧ (getFrameAt cfg s ms).2.readerPrevMs = s.readerPrevMs
    ∧ (getFrameAt cfg s ms).2.isDone = s.isDone
    ∧ (getFrameAt cfg s ms).2.duration = s.duration
    ∧ (getFrameAt cfg s ms).2.msList = s.msList
    ∧ (getFrameAt cfg s ms).2.seqReader = s.seqReader := by
  have hp := getRandReader_preserves cfg s
  cases hr : (getRandReader cfg s).1 with
  | none => simp [getFrameAt, hr, hp.1, hp.2.1, hp.2.2.1, hp.2.2.2.1,
      hp.2.2.2.2.1, hp.2.2.2.2.2]
  | some h =>
    cases ha : (subFrameAt cfg h ms).1 <;>
      simp [getFrameAt, hr, ha, hp.1, hp.2.1, hp.2.2.1, hp.2.2.2.1,
        hp.2.2.2.2.1, hp.2.2.2.2.2]

lemma seek_preserves_rand (cfg : ClipCfg) (s : CRState) (ms : Int) :
    (seek cfg s ms).2.randReader = s.randReader
    ∧ (seek cfg s ms).2.isDone = s.isDone
    ∧ (seek cfg s ms).2.duration = s.duration
    ∧ (seek cfg s ms).2.msList = s.msList := by
  have hp := getSeqReader_preserves cfg s
  cases hr : (getSeqReader cfg s).1 with
  | none => simp [seek, hr, hp.2.2.1, hp.2.2.2.1, hp.2.2.2.2.1, hp.2.2.2.2.2]
  | some h =>
    cases ha : (subFrameAt cfg h ms).1 <;>
      simp [seek, hr, ha, hp.2.2.1, hp.2.2.2.1, hp.2.2.2.2.1, hp.2.2.2.2.2]

/-- C9: `getFrameAt` leaves the facade's playback position state — the
last-delivered timestamp, the sequential cursor's tracked timestamp, the
done flag and the memoized duration and timestamp list — unchanged. -/
theorem C9_getFrameAt_state (cfg : ClipCfg) (s : CRState) (ms : Int) :
    (getFrameAt cfg s ms).2.prevMs = s.prevMs
    ∧ (getFrameAt cfg s ms).2.readerPrevMs = s.readerPrevMs
    ∧ (getFrameAt cfg s ms).2.isDone = s.isDone
    ∧ (getFrameAt cfg s ms).2.duration = s.duration
    ∧ (getFrameAt cfg s ms).2.msList = s.msList := by
  have hp := getFrameAt_preserves cfg s ms
  exact ⟨hp.1, hp.2.1, hp.2.2.1, hp.2.2.2.1, hp.2.2.2.2.1⟩

/-- Clip with two frames at 0 and 100 ms whose handle allocations always
succeed. -/
def clipTwoCfg : ClipCfg :=
  { clip := [0, 100], durationMs := 100, allocOk := fun _ => true }

/-- C2 counterexample: `seek` operates on the sequential cursor, not the
random one — after one sequential read positioned the sequential handle at
index 1, `seek(100)` moves that same handle to index 2 while no random
handle is ever allocated. -/
theorem C2_counterexample :
    ((openClip clipTwoCfg crInit).2.seqReader = none)
    ∧ ((crGetNextFrame clipTwoCfg (openClip clipTwoCfg crInit).2).2.seqReader
        = some { hid := 0, idx := 1 })
    ∧ ((seek clipTwoCfg
          (crGetNextFrame clipTwoCfg (openClip clipTwoCfg crInit).2).2 100).2.seqReader
        = some { hid := 0, idx := 2 })
    ∧ ((seek clipTwoCfg
          (crGetNextFrame clipTwoCfg (openClip clipTwoCfg crInit).2).2 100).2.randReader
        = none) := by
  decide

/-- C2 amended: `getFrameAt` always uses the random cursor, leaving the
sequential cursor's handle and tracked position untouched, while `seek`
operates on the sequential cursor (repositioning it, allocating it if
needed) and leaves the random cursor untouched. -/
theorem C2_cursor_usage (cfg : ClipCfg) (s : CRState) (ms : Int) :
    (getFrameAt cfg s ms).2.seqReader = s.seqReader
    ∧ (getFrameAt cfg s ms).2.readerPrevMs = s.readerPrevMs
    ∧ (seek cfg s ms).2.randReader = s.randReader := by
  have hp := getFrameAt_preserves cfg s ms
  exact ⟨hp.2.2.2.2.2, hp.2.1, (seek_preserves_rand cfg s ms).1⟩

lemma crGetMsList_isDone (cfg : ClipCfg) (s : CRState) :
    (crGetMsList cfg s).2.isDone = s.isDone := by
  have hp := getRandReader_preserves cfg s
  cases hl : s.msList with
  | none =>
    cases hr : (getRandReader cfg s).1 <;>
      simp [crGetMsList, hl, hr, hp.2.2.1]
  | some l =>
    by_cases he : l = []
    · cases hr : (getRandReader cfg s).1 <;>
        simp [crGetMsList, hl, he, hr, hp.2.2.1]
    · simp [crGetMsList, hl, he]

lemma getDuration_isDone (cfg : ClipCfg) (s : CRState) :
    (getDuration cfg s).2.isDone = s.isDone := by
  cases hd : s.duration with
  | none => cases hr : getAnyReader s <;> simp [getDuration, hd, hr]
  | some d => simp [getDuration, hd]

lemma seek_isDone (cfg : ClipCfg) (s : CRState) (ms : Int) :
    (seek cfg s ms).2.isDone = s.isDone :=
  (seek_preserves_rand cfg s ms).2.1

lemma crGetNextFrame_done_sticky (cfg : ClipCfg) (s : CRState)
    (hd : s.isDone = true) : (crGetNextFrame cfg s).2.isDone = true := by
  unfold crGetNextFrame
  set s0 := if s.readerPrevMs ≠ s.prevMs then (seek cfg s s.prevMs).2 else s with hs0
  have hd0 : s0.isDone = true := by
    rw [hs0]; split
    · exact (seek_isDone cfg s s.prevMs).trans hd
    · exact hd
  cases hr : (getSeqReader cfg s0).1 with
  | none => simp [hr, (getSeqReader_preserves cfg s0).2.2.1, hd0]
  | some h =>
    cases ha : (subNext cfg h).1 with
    | none => simp [hr, ha]
    | some m => simp [hr, ha, (getSeqReader_preserves cfg s0).2.2.1, hd0]

lemma crGetPrevFrame_done_clear (cfg : ClipCfg) (s : CRState) (m : Int)
    (hm : (crGetPrevFrame cfg s).1 = some m) :
    (crGetPrevFrame cfg s).2.isDone = false := by
  unfold crGetPrevFrame at hm ⊢
  set s0 := if s.readerPrevMs ≠ s.prevMs then (seek cfg s s.prevMs).2 else s with hs0
  cases hr : (getSeqReader cfg s0).1 with
  | none => simp [hr] at hm
  | some h =>
    cases ha : (subPrev cfg h).1 with
    | none => simp [hr, ha] at hm
    | some m2 => simp [hr, ha]

/-- State of a clip with two frames after reading past its end: three
sequential reads, the last of which hits end-of-stream. -/
def c5s1 : CRState := (openClip clipTwoCfg crInit).2
def c5s2 : CRState := (crGetNextFrame clipTwoCfg c5s1).2
def c5s3 : CRState := (crGetNextFrame clipTwoCfg c5s2).2
def c5s4 : CRState := (crGetNextFrame clipTwoCfg c5s3).2

/-- C5 counterexample: after end-of-stream sets the done flag, a successful
`seek` delivers a frame but does not clear the done flag, refuting the
claim that the flag remains set only until a new seek. -/
theorem C5_counterexample :
    c5s4.isDone = true
    ∧ (seek clipTwoCfg c5s4 0).1 = some 0
    ∧ (seek clipTwoCfg c5s4 0).2.isDone = true := by
  decide

/-- C5 amended: `getNextFrame` at end-of-stream sets the done flag, clears
both position fields and returns no frame; the flag then stays set across
getNextFrame, seek, getFrameAt, getMsList and getDuration (seek does not
clear it), and is cleared only by an explicit reset/close or by a
successful `getPrevFrame`. -/
theorem C5_done_flag (cfg : ClipCfg) (s : CRState) (h : Handle) (ms : Int) :
    (s.readerPrevMs = s.prevMs → s.seqReader = some h →
      cfg.clip.get? h.idx = none →
      crGetNextFrame cfg s
        = (none, { s with readerPrevMs := -1, prevMs := -1, isDone := true }))
    ∧ (s.isDone = true →
        (crGetNextFrame cfg s).2.isDone = true
        ∧ (seek cfg s ms).2.isDone = true
        ∧ (getFrameAt cfg s ms).2.isDone = true
        ∧ (crGetMsList cfg s).2.isDone = true
        ∧ (getDuration cfg s).2.isDone = true)
    ∧ (resetState s).isDone = false
    ∧ (∀ m, (crGetPrevFrame cfg s).1 = some m →
        (crGetPrevFrame cfg s).2.isDone = false) := by
  refine ⟨?_, ?_, rfl, fun m hm => crGetPrevFrame_done_clear cfg s m hm⟩
  · intro hdiv hseq heos
    obtain ⟨sq, rr, fr, pm, rpm, dn, du, ml, nh⟩ := s
    simp only at hdiv hseq heos ⊢
    subst hdiv hseq
    rw [List.get?_eq_getElem?] at heos
    simp [crGetNextFrame, getSeqReader, subNext, heos]
  · intro hd
    exact ⟨crGetNextFrame_done_sticky cfg s hd,
      (seek_isDone cfg s ms).trans hd,
      (getFrameAt_preserves cfg s ms).2.2.1.trans hd,
      (crGetMsList_isDone cfg s).trans hd,
      (getDuration_isDone cfg s).trans hd⟩

theorem C5_done_flag_witness :
    crGetNextFrame clipTwoCfg c5s4
      = (none, { c5s4 with readerPrevMs := -1, prevMs := -1, isDone := true })
    ∧ (seek clipTwoCfg c5s4 0).2.isDone = true
    ∧ (resetState c5s4).isDone = false
    ∧ (crGetPrevFrame clipTwoCfg c5s4).2.isDone = false := by
  have h := C5_done_flag clipTwoCfg c5s4 { hid := 0, idx := 2 } 0
  exact ⟨h.1 (by decide) (by decide) (by decide), (h.2.1 (by decide)).2.1,
    h.2.2.1, h.2.2.2 0 (by decide)⟩

lemma runModes_both_fixed (cfg : ClipCfg) (s : CRState) (h1 h2 : Handle)
    (hs : s.seqReader = some h1) (hr : s.randReader = some h2)
    (ops : List Mode) : runModes cfg s ops = s := by
  induction ops with
  | nil => rfl
  | cons m rest ih =>
    cases m with
    | seq =>
      have hstep : (getSeqReader cfg s).2 = s := by simp [getSeqReader, hs]
      simpa [runModes, hstep] using ih
    | rand =>
      have hstep : (getRandReader cfg s).2 = s := by simp [getRandReader, hr]
      simpa [runModes, hstep] using ih

lemma runModes_seq_claimed (cfg : ClipCfg) (hall : ∀ n, cfg.allocOk n = true)
    (s : CRState) (h1 : Handle) (hs : s.seqReader = some h1)
    (hf : s.firstReader = none) (hr : s.randReader = none) (ops : List Mode) :
    runModes cfg s ops =
      if Mode.rand ∈ ops then
        { s with randReader := some { hid := s.nextHid, idx := 0 },
                 nextHid := s.nextHid + 1 }
      else s := by
  induction ops with
  | nil => simp [runModes]
  | cons m rest ih =>
    cases m with
    | seq =>
      have hstep : (getSeqReader cfg s).2 = s := by simp [getSeqReader, hs]
      rw [runModes, hstep, ih]
      simp
    | rand =>
      have hstep : (getRandReader cfg s).2
          = { s with randReader := some { hid := s.nextHid, idx := 0 },
                     nextHid := s.nextHid + 1 } := by
        simp [getRandReader, hr, hf, allocReader, hall s.nextHid]
      rw [runModes, hstep,
        runModes_both_fixed cfg
          ({ s with randReader := some { hid := s.nextHid, idx := 0 },
                    nextHid := s.nextHid + 1 }) h1 { hid := s.nextHid, idx := 0 }
          hs rfl rest]
      simp

lemma runModes_rand_claimed (cfg : ClipCfg) (hall : ∀ n, cfg.allocOk n = true)
    (s : CRState) (h1 : Handle) (hs : s.randReader = some h1)
    (hf : s.firstReader = none) (hr : s.seqReader = none) (ops : List Mode) :
    runModes cfg s ops =
      if Mode.seq ∈ ops then
        { s with seqReader := some { hid := s.nextHid, idx := 0 },
                 nextHid := s.nextHid + 1 }
      else s := by
  induction ops with
  | nil => simp [runModes]
  | cons m rest ih =>
    cases m with
    | rand =>
      have hstep : (getRandReader cfg s).2 = s := by simp [getRandReader, hs]
      rw [runModes, hstep, ih]
      simp
    | seq =>
      have hstep : (getSeqReader cfg s).2
          = { s with seqReader := some { hid := s.nextHid, idx := 0 },
                     nextHid := s.nextHid + 1 } := by
        simp [getSeqReader, hr, hf, allocReader, hall s.nextHid]
      rw [runModes, hstep,
        runModes_both_fixed cfg
          ({ s with seqReader := some { hid := s.nextHid, idx := 0 },
                    nextHid := s.nextHid + 1 }) { hid := s.nextHid, idx := 0 } h1
          rfl hs rest]
      simp

lemma openClip_state (cfg : ClipCfg) (h0 : cfg.allocOk 0 = true) :
    (openClip cfg crInit).2
      = CRState.mk none none (some { hid := 0, idx := 0 }) (-1) (-1) false
          none none 1 := by
  simp [openClip, allocReader, resetState, crInit, h0]

/-- C6: on a successfully opened clip, a call sequence using only the
sequential accessor allocates exactly one decode handle in total, a
sequence using both accessors allocates exactly two, and whichever mode is
requested first claims the shared first handle (allocated at open, with
identity 0), clearing the first-handle slot. -/
theorem C6_handle_allocation (cfg : ClipCfg) (hall : ∀ n, cfg.allocOk n = true)
    (ops : List Mode) :
    (runModes cfg (openClip cfg crInit).2 ops).nextHid
        = (if Mode.seq ∈ ops ∧ Mode.rand ∈ ops then 2 else 1)
    ∧ (∀ m rest, ops = m :: rest →
        (runModes cfg (openClip cfg crInit).2 ops).firstReader = none
        ∧ ∃ h, modeSlot m (runModes cfg (openClip cfg crInit).2 ops) = some h
            ∧ h.hid = 0) := by
  rw [openClip_state cfg (hall 0)]
  cases ops with
  | nil => simp [runModes]
  | cons m rest =>
    cases m with
    | seq =>
      have hstep : (getSeqReader cfg (CRState.mk none none
          (some { hid := 0, idx := 0 }) (-1) (-1) false none none 1)).2
          = CRState.mk (some { hid := 0, idx := 0 }) none none (-1) (-1) false
              none none 1 := by
        simp [getSeqReader]
      rw [runModes, hstep, runModes_seq_claimed cfg hall _ { hid := 0, idx := 0 }
        rfl rfl rfl rest]
      by_cases hran : Mode.rand ∈ rest
      · refine ⟨by simp [hran], ?_⟩
        intro m2 rest2 heq
        cases heq
        exact ⟨by simp [hran], ⟨{ hid := 0, idx := 0 }, by simp [hran, modeSlot], rfl⟩⟩
      · refine ⟨by simp [hran], ?_⟩
        intro m2 rest2 heq
        cases heq
        exact ⟨by simp [hran], ⟨{ hid := 0, idx := 0 }, by simp [hran, modeSlot], rfl⟩⟩
    | rand =>
      have hstep : (getRandReader cfg (CRState.mk none none
          (some { hid := 0, idx := 0 }) (-1) (-1) false none none 1)).2
          = CRState.mk none (some { hid := 0, idx := 0 }) none (-1) (-1) false
              none none 1 := by
        simp [getRandReader]
      rw [runModes, hstep, runModes_rand_claimed cfg hall _ { hid := 0, idx := 0 }
        rfl rfl rfl rest]
      by_cases hseq : Mode.seq ∈ rest
      · refine ⟨by simp [hseq], ?_⟩
        intro m2 rest2 heq
        cases heq
        exact ⟨by simp [hseq], ⟨{ hid := 0, idx := 0 }, by simp [hseq, modeSlot], rfl⟩⟩
      · refine ⟨by simp [hseq], ?_⟩
        intro m2 rest2 heq
        cases heq
        exact ⟨by simp [hseq], ⟨{ hid := 0, idx := 0 }, by simp [hseq, modeSlot], rfl⟩⟩

theorem C6_handle_allocation_witness :
    (runModes clipTwoCfg (openClip clipTwoCfg crInit).2 [Mode.rand, Mode.seq]).nextHid = 2
    ∧ (runModes clipTwoCfg (openClip clipTwoCfg crInit).2 [Mode.seq, Mode.seq]).nextHid = 1 := by
  have h1 := C6_handle_allocation clipTwoCfg (fun _ => rfl) [Mode.rand, Mode.seq]
  have h2 := C6_handle_allocation clipTwoCfg (fun _ => rfl) [Mode.seq, Mode.seq]
  refine ⟨?_, ?_⟩
  · rw [h1.1]; decide
  · rw [h2.1]; decide

/-- Checker for the single-slot mover discipline over a trace: starting
from a given busy state, mover-thread starts must only occur when no job is
in flight, relocation activity (file moves, failure callbacks) only while
one is, and each index commit retires the in-flight job. -/
def oneInFlight (busy : Bool) : List Ev → Bool
  | [] => true
  | Ev.startJob _ :: r => !busy && oneInFlight true r
  | Ev.fileMoved _ _ :: r => busy && oneInFlight busy r
  | Ev.moveFailed _ :: r => busy && oneInFlight busy r
  | Ev.commit _ _ _ _ _ _ _ :: r => busy && oneInFlight false r
  | Ev.flushOutput :: r => oneInFlight busy r
  | Ev.freeStream :: r => oneInFlight busy r

/-- Busy state left by a trace: a start puts a job in flight, a commit
retires it. -/
def busyAfter (busy : Bool) : List Ev → Bool
  | [] => busy
  | Ev.startJob _ :: r => busyAfter true r
  | Ev.fileMoved _ _ :: r => busyAfter busy r
  | Ev.moveFailed _ :: r => busyAfter busy r
  | Ev.commit _ _ _ _ _ _ _ :: r => busyAfter false r
  | Ev.flushOutput :: r => busyAfter busy r
  | Ev.freeStream :: r => busyAfter busy r

lemma oneInFlight_append (b : Bool) (xs ys : List Ev) :
    oneInFlight b (xs ++ ys)
      = (oneInFlight b xs && oneInFlight (busyAfter b xs) ys) := by
  induction xs generalizing b with
  | nil => simp [oneInFlight, busyAfter]
  | cons e rest ih =>
    cases e <;> simp [oneInFlight, busyAfter, ih, Bool.and_assoc]

lemma busyAfter_append (b : Bool) (xs ys : List Ev) :
    busyAfter b (xs ++ ys) = busyAfter (busyAfter b xs) ys := by
  induction xs generalizing b with
  | nil => rfl
  | cons e rest ih => cases e <;> simp [busyAfter, ih]

/-- Whether a session currently has a mover thread in flight. -/
def busyB (s : SRState) : Bool := s.moverThread.isSome

/-- A trace fragment respects the single-slot discipline from busy state
`b` and leaves busy state `b2`. -/
def GoodEvs (b : Bool) (evs : List Ev) (b2 : Bool) : Prop :=
  oneInFlight b evs = true ∧ busyAfter b evs = b2

lemma GoodEvs.append {b b1 b2 : Bool} {e1 e2 : List Ev}
    (h1 : GoodEvs b e1 b1) (h2 : GoodEvs b1 e2 b2) :
    GoodEvs b (e1 ++ e2) b2 := by
  constructor
  · rw [oneInFlight_append, h1.1, h1.2, h2.1]
    rfl
  · rw [busyAfter_append, h1.2, h2.2]

lemma run_commit_flight (j : MoveJob) :
    oneInFlight true (MoveJob.run j ++ MoveJob.addFileToDbEvs j) = true
    ∧ busyAfter true (MoveJob.run j ++ MoveJob.addFileToDbEvs j) = false := by
  by_cases hg : j.curFilename = "" ∨ j.hasClipManager = false
  · simp [MoveJob.run, hg, MoveJob.addFileToDbEvs, oneInFlight, busyAfter]
  · cases hm : j.moveOk <;>
      simp [MoveJob.run, hg, hm, MoveJob.addFileToDbEvs, oneInFlight, busyAfter]

lemma goodFinalize (s : SRState) (bl al : Bool) :
    GoodEvs (busyB s) (finalizeMoverThread s bl al).2
      (busyB (finalizeMoverThread s bl al).1) := by
  cases hmv : s.moverThread with
  | none => simp [GoodEvs, finalizeMoverThread, hmv, oneInFlight, busyAfter]
  | some j =>
    by_cases hc : al ∧ bl = false
    · simp [GoodEvs, finalizeMoverThread, hmv, hc, oneInFlight, busyAfter]
    · have hr := run_commit_flight j
      simp [GoodEvs, finalizeMoverThread, hmv, hc, busyB, hr.1, hr.2]

lemma goodAddFileToDb (cfg : SRConfig) (s : SRState) :
    GoodEvs (busyB s) (addFileToDb cfg s).2 (busyB (addFileToDb cfg s).1) := by
  by_cases hg : s.curFilename = "" ∨ cfg.hasClipManager = false
  · simp [GoodEvs, addFileToDb, hg, oneInFlight, busyAfter]
  · have hf : GoodEvs (busyB s) (terminateMoverThread s).2
        (busyB (terminateMoverThread s).1) := goodFinalize s true true
    have hb : busyB (terminateMoverThread s).1 = false := by
      simp [busyB, terminateMoverThread_fst_mover s]
    have hstart : GoodEvs false
        [Ev.startJob (mkMoveJob cfg (terminateMoverThread s).1)] true := by
      simp [GoodEvs, oneInFlight, busyAfter]
    rw [← hb] at hstart
    have hall := GoodEvs.append hf hstart
    simp only [addFileToDb, if_neg hg]
    exact hall

lemma goodFlush (s : SRState) (msNeeded : Option Int) (b : Bool) :
    GoodEvs b (flush s msNeeded) b := by
  unfold flush
  split <;> simp [GoodEvs, oneInFlight, busyAfter]

lemma goodClose (cfg : SRConfig) (s : SRState) :
    GoodEvs (busyB s) (close cfg s).2 (busyB (close cfg s).1) := by
  have h1 : GoodEvs (busyB s) (flush s none) (busyB s) := goodFlush s none _
  have h2 : GoodEvs (busyB s)
      (if ({ s with isRunning := false } : SRState).stream = true
        then [Ev.freeStream] else []) (busyB s) := by
    split <;> simp [GoodEvs, oneInFlight, busyAfter]
  have h3 : GoodEvs (busyB s)
      (if ({ s with isRunning := false } : SRState).curFilename ≠ ""
        then addFileToDb cfg { s with isRunning := false }
        else ({ s with isRunning := false }, [])).2
      (busyB (if ({ s with isRunning := false } : SRState).curFilename ≠ ""
        then addFileToDb cfg { s with isRunning := false }
        else ({ s with isRunning := false }, [])).1) := by
    split
    · exact goodAddFileToDb cfg { s with isRunning := false }
    · exact ⟨rfl, rfl⟩
  have h4 : GoodEvs
      (busyB (if ({ s with isRunning := false } : SRState).curFilename ≠ ""
        then addFileToDb cfg { s with isRunning := false }
        else ({ s with isRunning := false }, [])).1)
      (terminateMoverThread
        (if ({ s with isRunning := false } : SRState).curFilename ≠ ""
          then addFileToDb cfg { s with isRunning := false }
          else ({ s with isRunning := false }, [])).1).2
      (busyB (terminateMoverThread
        (if ({ s with isRunning := false } : SRState).curFilename ≠ ""
          then addFileToDb cfg { s with isRunning := false }
          else ({ s with isRunning := false }, [])).1).1) :=
    goodFinalize _ true true
  exact GoodEvs.append (GoodEvs.append (GoodEvs.append h1 h2) h3) h4

lemma goodTransition (cfg : SRConfig) (s1 : SRState) (r : FrameData) :
    GoodEvs (busyB s1) (transitionStep cfg s1 r).2
      (busyB (transitionStep cfg s1 r).1) := by
  unfold transitionStep
  split
  · exact goodAddFileToDb cfg { s1 with curFilePath := r.filename }
  · exact ⟨rfl, rfl⟩

lemma goodGetNewFrame (cfg : SRConfig) (s : SRState) (inp : PollInput) :
    GoodEvs (busyB s) (getNewFrame cfg s inp).2.1
      (busyB (getNewFrame cfg s inp).1) := by
  by_cases hg : s.stream = false ∨ s.isRunning = false
  · simp only [getNewFrame, if_pos hg]
    exact ⟨rfl, rfl⟩
  · cases hres : inp.res with
    | none =>
      simp only [getNewFrame, if_neg hg, hres]
      split
      · exact ⟨rfl, rfl⟩
      · exact goodClose cfg s
    | some r =>
      simp only [getNewFrame, if_neg hg, hres]
      have hp : GoodEvs (busyB s)
          (if r.isRunning = true then (s, ([] : List Ev)) else close cfg s).2
          (busyB (if r.isRunning = true then (s, ([] : List Ev))
            else close cfg s).1) := by
        split
        · exact ⟨rfl, rfl⟩
        · exact goodClose cfg s
      have hq := goodTransition cfg
        (if r.isRunning = true then (s, ([] : List Ev)) else close cfg s).1 r
      have hu : GoodEvs
          (busyB { (transitionStep cfg
            (if r.isRunning = true then (s, ([] : List Ev))
              else close cfg s).1 r).1 with curLastMs := r.ms })
          (finalizeMoverThread
            { (transitionStep cfg
                (if r.isRunning = true then (s, ([] : List Ev))
                  else close cfg s).1 r).1 with curLastMs := r.ms }
            false inp.moverAlive).2
          (busyB (finalizeMoverThread
            { (transitionStep cfg
                (if r.isRunning = true then (s, ([] : List Ev))
                  else close cfg s).1 r).1 with curLastMs := r.ms }
            false inp.moverAlive).1) :=
        goodFinalize _ false inp.moverAlive
      exact GoodEvs.append (GoodEvs.append hp hq) hu

lemma goodPollMany (cfg : SRConfig) (inputs : List PollInput) :
    ∀ s, GoodEvs (busyB s) (pollMany cfg s inputs).2
      (busyB (pollMany cfg s inputs).1) := by
  induction inputs with
  | nil => intro s; exact ⟨rfl, rfl⟩
  | cons i rest ih =>
    intro s
    exact GoodEvs.append (goodGetNewFrame cfg s i) (ih _)

/-- C4: for all poll sequences and all mover-thread timings, the session's
full trace respects the single-slot mover discipline: mover jobs start only
when none is in flight, and each job's relocation and index commit complete
before the next job starts — at most one Move Job is in flight at any
instant. -/
theorem C4_single_mover (cfg : SRConfig) (inputs : List PollInput) :
    oneInFlight false (sessionTrace cfg inputs) = true := by
  have h := GoodEvs.append (goodPollMany cfg inputs srOpen)
    (goodClose cfg (pollMany cfg srOpen inputs).1)
  exact h.1

/-- Data recorded for each Move Job submission in a trace: the superseded
segment's file name and its start and end timestamps. -/
def jobTriples (evs : List Ev) : List (String × Int × Int) :=
  evs.filterMap fun e =>
    match e with
    | Ev.startJob j => some (j.curFilename, j.curStartMs, j.curLastMs)
    | _ => none

/-- Expected per-segment submissions for the remaining frames given the
tracked current segment (reported path, start and last timestamp); the
final tracked segment is submitted at close. -/
def segJobsAux (curPath : String) (segStart lastMs : Int) :
    List FrameData → List (String × Int × Int)
  | [] => [(curPath, segStart, lastMs)]
  | f :: fs =>
    if f.filename = curPath then segJobsAux curPath segStart f.ms fs
    else (curPath, segStart, lastMs) :: segJobsAux f.filename f.ms f.ms fs

/-- Expected Move Job submissions for a polled frame sequence: one per
maximal run of equal file names. -/
def segJobs : List FrameData → List (String × Int × Int)
  | [] => []
  | f :: fs => segJobsAux f.filename f.ms f.ms fs

/-- Number of file-name transitions between consecutive frames of a polled
sequence. -/
def transitions : List FrameData → Nat
  | [] => 0
  | [_] => 0
  | f :: g :: fs =>
    (if g.filename = f.filename then 0 else 1) + transitions (g :: fs)

/-- Transition count for the remaining frames relative to the tracked
file name. -/
def transAux (curPath : String) : List FrameData → Nat
  | [] => 0
  | f :: fs => (if f.filename = curPath then 0 else 1) + transAux f.filename fs

/-- Reduction of each expected submission to the data a Move Job snapshot
carries: base file name plus start and end timestamps. -/
def mapTriple (l : List (String × Int × Int)) : List (String × Int × Int) :=
  l.map fun t => (splitFilename t.1, t.2.1, t.2.2)

lemma transitions_eq_transAux : ∀ (fs : List FrameData) (f : FrameData),
    transitions (f :: fs) = transAux f.filename fs := by
  intro fs
  induction fs with
  | nil => intro f; rfl
  | cons g fs ih =>
    intro f
    rw [transitions, transAux, ih g]

lemma segJobsAux_length : ∀ (l : List FrameData) (P : String) (a b : Int),
    (segJobsAux P a b l).length = transAux P l + 1 := by
  intro l
  induction l with
  | nil => intro P a b; rfl
  | cons f fs ih =>
    intro P a b
    by_cases hf : f.filename = P
    · rw [segJobsAux, if_pos hf, ih, transAux, if_pos hf, hf]
      omega
    · rw [segJobsAux, if_neg hf, List.length_cons, ih, transAux, if_neg hf]
      omega

lemma jobTriples_append (a b : List Ev) :
    jobTriples (a ++ b) = jobTriples a ++ jobTriples b :=
  List.filterMap_append a b _

lemma jobTriples_run (j : MoveJob) : jobTriples (MoveJob.run j) = [] := by
  by_cases hg : j.curFilename = "" ∨ j.hasClipManager = false
  · simp [MoveJob.run, hg, jobTriples]
  · cases hm : j.moveOk <;> simp [MoveJob.run, hg, hm, jobTriples]

lemma jobTriples_finalize (x : SRState) (bl al : Bool) :
    jobTriples (finalizeMoverThread x bl al).2 = [] := by
  cases hmv : x.moverThread with
  | none => simp [finalizeMoverThread, hmv, jobTriples]
  | some j =>
    by_cases hc : al ∧ bl = false
    · simp [finalizeMoverThread, hmv, hc, jobTriples]
    · simp only [finalizeMoverThread, hmv]
      rw [if_neg hc, jobTriples_append, jobTriples_run]
      rfl

lemma jobTriples_flush (s : SRState) (msNeeded : Option Int) :
    jobTriples (flush s msNeeded) = [] := by
  unfold flush
  split <;> rfl

lemma jobTriples_terminate (x : SRState) :
    jobTriples (terminateMoverThread x).2 = [] :=
  jobTriples_finalize x true true

lemma terminateMoverThread_fst (x : SRState) :
    (terminateMoverThread x).1 = { x with moverThread := none } := by
  cases hmv : x.moverThread with
  | none =>
    simp only [terminateMoverThread, finalizeMoverThread, hmv]
    rw [← hmv]
  | some j => simp [terminateMoverThread, finalizeMoverThread, hmv]

lemma addFileToDb_eval (cfg : SRConfig) (x : SRState) (hne : x.curFilename ≠ "")
    (hcm : cfg.hasClipManager = true) :
    addFileToDb cfg x
      = ({ x with moverThread := some (mkMoveJob cfg x),
                  jobCount := x.jobCount + 1 },
         (terminateMoverThread x).2 ++ [Ev.startJob (mkMoveJob cfg x)]) := by
  have hv : ¬ (x.curFilename = "" ∨ cfg.hasClipManager = false) := by
    simp [hne, hcm]
  simp only [addFileToDb, if_neg hv]
  rw [terminateMoverThread_fst]
  rfl

lemma jobTriples_close (cfg : SRConfig) (s : SRState) (hne : s.curFilename ≠ "")
    (hcm : cfg.hasClipManager = true) :
    jobTriples (close cfg s).2
      = [(s.curFilename, s.curStartMs, s.curLastMs)] := by
  have hcf : ({ s with isRunning := false } : SRState).curFilename ≠ "" := hne
  simp only [close, if_pos hcf]
  rw [addFileToDb_eval cfg { s with isRunning := false } hne hcm]
  simp only [jobTriples_append, jobTriples_flush, jobTriples_terminate]
  have hfr : jobTriples
      (if ({ s with isRunning := false } : SRState).stream = true
        then [Ev.freeStream] else []) = [] := by
    split <;> rfl
  rw [hfr]
  rfl

lemma jobTriples_close_empty (cfg : SRConfig) (s : SRState)
    (he : s.curFilename = "") : jobTriples (close cfg s).2 = [] := by
  have hcf : ¬ ({ s with isRunning := false } : SRState).curFilename ≠ "" := by
    simp [he]
  simp only [close, if_neg hcf]
  simp only [jobTriples_append, jobTriples_flush, jobTriples_terminate]
  have hfr : jobTriples
      (if ({ s with isRunning := false } : SRState).stream = true
        then [Ev.freeStream] else []) = [] := by
    split <;> rfl
  rw [hfr]
  rfl

lemma getNewFrame_frame_eval (cfg : SRConfig) (s : SRState) (f : FrameData)
    (alive : Bool) (hst : s.stream = true) (hru : s.isRunning = true)
    (hfr : f.isRunning = true) :
    getNewFrame cfg s (framePoll f alive)
      = ((finalizeMoverThread
            { (transitionStep cfg s f).1 with curLastMs := f.ms }
            false alive).1,
         (transitionStep cfg s f).2
           ++ (finalizeMoverThread
            { (transitionStep cfg s f).1 with curLastMs := f.ms }
            false alive).2,
         some f) := by
  have hg : ¬ (s.stream = false ∨ s.isRunning = false) := by
    simp [hst, hru]
  simp only [getNewFrame, framePoll, if_neg hg, hfr, if_true]
  rfl

lemma transitionStep_same (cfg : SRConfig) (s : SRState) (f : FrameData)
    (h : f.filename = s.curFilePath) : transitionStep cfg s f = (s, []) := by
  simp [transitionStep, h]

lemma transitionStep_diff (cfg : SRConfig) (s : SRState) (f : FrameData)
    (hcm : cfg.hasClipManager = true) (h : f.filename ≠ s.curFilePath)
    (hne : s.curFilename ≠ "") :
    transitionStep cfg s f
      = (SRState.mk s.stream s.isRunning s.curFilename s.curDirPath f.filename
           (splitFilename f.filename)
           (lowerStr (pjoin cfg.locationName (strTake (splitFilename f.filename) 5)))
           f.ms s.curLastMs (some (mkMoveJob cfg s)) (s.jobCount + 1),
         (terminateMoverThread { s with curFilePath := f.filename }).2
           ++ [Ev.startJob (mkMoveJob cfg s)]) := by
  have hcond : cfg.hasClipManager = true ∧ f.filename ≠ s.curFilePath := ⟨hcm, h⟩
  simp only [transitionStep, if_pos hcond]
  rw [addFileToDb_eval cfg { s with curFilePath := f.filename } hne hcm]
  rfl

lemma transitionStep_first (cfg : SRConfig) (s : SRState) (f : FrameData)
    (h : f.filename ≠ s.curFilePath) (hcm : cfg.hasClipManager = true)
    (he : s.curFilename = "") :
    transitionStep cfg s f
      = (SRState.mk s.stream s.isRunning s.curFilename s.curDirPath f.filename
           (splitFilename f.filename)
           (lowerStr (pjoin cfg.locationName (strTake (splitFilename f.filename) 5)))
           f.ms s.curLastMs s.moverThread s.jobCount,
         []) := by
  have hcond : cfg.hasClipManager = true ∧ f.filename ≠ s.curFilePath := ⟨hcm, h⟩
  have hv : ({ s with curFilePath := f.filename } : SRState).curFilename = ""
      ∨ cfg.hasClipManager = false := Or.inl he
  simp only [transitionStep, if_pos hcond, addFileToDb, if_pos hv]

lemma finalize_fields (x : SRState) (bl al : Bool) :
    ((finalizeMoverThread x bl al).1).stream = x.stream
    ∧ ((finalizeMoverThread x bl al).1).isRunning = x.isRunning
    ∧ ((finalizeMoverThread x bl al).1).curFilePath = x.curFilePath
    ∧ ((finalizeMoverThread x bl al).1).curFilename = x.curFilename
    ∧ ((finalizeMoverThread x bl al).1).curStartMs = x.curStartMs
    ∧ ((finalizeMoverThread x bl al).1).curLastMs = x.curLastMs := by
  cases hmv : x.moverThread with
  | none => simp [finalizeMoverThread, hmv]
  | some j =>
    by_cases hc : al ∧ bl = false <;> simp [finalizeMoverThread, hmv, hc]

lemma splitFilename_ne_empty {x : String} (h : splitFilename x ≠ "") :
    x ≠ "" := by
  intro hx
  rw [hx] at h
  exact h rfl

/-- Session state right after a poll processed frame `f` as a rollover from
the previously tracked segment (before the opportunistic mover finalize). -/
def midState (cfg : SRConfig) (s : SRState) (f : FrameData) : SRState :=
  SRState.mk s.stream s.isRunning s.curFilename s.curDirPath f.filename
    (splitFilename f.filename)
    (lowerStr (pjoin cfg.locationName (strTake (splitFilename f.filename) 5)))
    f.ms f.ms (some (mkMoveJob cfg s)) (s.jobCount + 1)

/-- Session state right after a poll processed frame `f` as the very first
segment of the session (no previous segment to submit). -/
def midStateFirst (cfg : SRConfig) (s : SRState) (f : FrameData) : SRState :=
  SRState.mk s.stream s.isRunning s.curFilename s.curDirPath f.filename
    (splitFilename f.filename)
    (lowerStr (pjoin cfg.locationName (strTake (splitFilename f.filename) 5)))
    f.ms f.ms s.moverThread s.jobCount

lemma step_same_eval (cfg : SRConfig) (s : SRState) (f : FrameData) (al : Bool)
    (hst : s.stream = true) (hru : s.isRunning = true) (hfr : f.isRunning = true)
    (hsame : f.filename = s.curFilePath) :
    getNewFrame cfg s (framePoll f al)
      = ((finalizeMoverThread { s with curLastMs := f.ms } false al).1,
         (finalizeMoverThread { s with curLastMs := f.ms } false al).2,
         some f) := by
  rw [getNewFrame_frame_eval cfg s f al hst hru hfr,
    transitionStep_same cfg s f hsame]
  rfl

lemma step_diff_eval (cfg : SRConfig) (s : SRState) (f : FrameData) (al : Bool)
    (hst : s.stream = true) (hru : s.isRunning = true) (hfr : f.isRunning = true)
    (hcm : cfg.hasClipManager = true) (hdiff : f.filename ≠ s.curFilePath)
    (hne : s.curFilename ≠ "") :
    getNewFrame cfg s (framePoll f al)
      = ((finalizeMoverThread (midState cfg s f) false al).1,
         ((terminateMoverThread { s with curFilePath := f.filename }).2
             ++ [Ev.startJob (mkMoveJob cfg s)])
           ++ (finalizeMoverThread (midState cfg s f) false al).2,
         some f) := by
  rw [getNewFrame_frame_eval cfg s f al hst hru hfr,
    transitionStep_diff cfg s f hcm hdiff hne]
  rfl

lemma step_first_eval (cfg : SRConfig) (s : SRState) (f : FrameData) (al : Bool)
    (hst : s.stream = true) (hru : s.isRunning = true) (hfr : f.isRunning = true)
    (hcm : cfg.hasClipManager = true) (hdiff : f.filename ≠ s.curFilePath)
    (he : s.curFilename = "") :
    getNewFrame cfg s (framePoll f al)
      = ((finalizeMoverThread (midStateFirst cfg s f) false al).1,
         (finalizeMoverThread (midStateFirst cfg s f) false al).2,
         some f) := by
  rw [getNewFrame_frame_eval cfg s f al hst hru hfr,
    transitionStep_first cfg s f hdiff hcm he]
  rfl

lemma pollClose_jobTriples (cfg : SRConfig) (hcm : cfg.hasClipManager = true) :
    ∀ (inputs : List (FrameData × Bool)) (s : SRState),
    s.stream = true → s.isRunning = true →
    s.curFilename = splitFilename s.curFilePath →
    s.curFilename ≠ "" →
    (∀ p ∈ inputs, p.1.isRunning = true ∧ splitFilename p.1.filename ≠ "") →
    jobTriples ((pollMany cfg s (inputs.map fun p => framePoll p.1 p.2)).2
        ++ (close cfg
            (pollMany cfg s (inputs.map fun p => framePoll p.1 p.2)).1).2)
      = mapTriple
          (segJobsAux s.curFilePath s.curStartMs s.curLastMs
            (inputs.map Prod.fst)) := by
  intro inputs
  induction inputs with
  | nil =>
    intro s hst hru hsf hne _
    simp only [List.map_nil, pollMany, List.nil_append]
    rw [jobTriples_close cfg s hne hcm]
    simp [mapTriple, segJobsAux, hsf]
  | cons p rest ih =>
    intro s hst hru hsf hne hin
    obtain ⟨f, al⟩ := p
    have hf := hin (f, al) (List.mem_cons_self _ _)
    have hrest : ∀ q ∈ rest,
        q.1.isRunning = true ∧ splitFilename q.1.filename ≠ "" :=
      fun q hq => hin q (List.mem_cons_of_mem _ hq)
    simp only [List.map_cons, pollMany]
    by_cases hsame : f.filename = s.curFilePath
    · rw [step_same_eval cfg s f al hst hru hf.1 hsame]
      dsimp only
      have hu := finalize_fields { s with curLastMs := f.ms } false al
      have hIH := ih
        (finalizeMoverThread { s with curLastMs := f.ms } false al).1
        (hu.1.trans hst) (hu.2.1.trans hru)
        (by rw [hu.2.2.2.1, hu.2.2.1]; exact hsf)
        (by rw [hu.2.2.2.1]; exact hne) hrest
      simp only [List.append_assoc]
      rw [jobTriples_append, jobTriples_finalize,
        List.nil_append, hIH, hu.2.2.1, hu.2.2.2.2.1, hu.2.2.2.2.2]
      rw [show ({ s with curLastMs := f.ms } : SRState).curFilePath
            = s.curFilePath from rfl,
        show ({ s with curLastMs := f.ms } : SRState).curStartMs
            = s.curStartMs from rfl,
        show ({ s with curLastMs := f.ms } : SRState).curLastMs = f.ms from rfl]
      rw [show segJobsAux s.curFilePath s.curStartMs s.curLastMs
            (f :: rest.map Prod.fst)
            = segJobsAux s.curFilePath s.curStartMs f.ms (rest.map Prod.fst)
          from by rw [segJobsAux, if_pos hsame]]
    · rw [step_diff_eval cfg s f al hst hru hf.1 hcm hsame hne]
      dsimp only
      have hu := finalize_fields (midState cfg s f) false al
      have hIH := ih (finalizeMoverThread (midState cfg s f) false al).1
        (hu.1.trans hst) (hu.2.1.trans hru)
        (by rw [hu.2.2.2.1, hu.2.2.1]; rfl)
        (by rw [hu.2.2.2.1]; exact hf.2) hrest
      simp only [List.append_assoc]
      rw [jobTriples_append, jobTriples_terminate, List.nil_append,
        jobTriples_append, jobTriples_append, jobTriples_finalize,
        List.nil_append, hIH, hu.2.2.1, hu.2.2.2.2.1, hu.2.2.2.2.2]
      rw [show (midState cfg s f).curFilePath = f.filename from rfl,
        show (midState cfg s f).curStartMs = f.ms from rfl,
        show (midState cfg s f).curLastMs = f.ms from rfl]
      rw [show segJobsAux s.curFilePath s.curStartMs s.curLastMs
            (f :: rest.map Prod.fst)
            = (s.curFilePath, s.curStartMs, s.curLastMs)
                :: segJobsAux f.filename f.ms f.ms (rest.map Prod.fst)
          from by rw [segJobsAux, if_neg hsame]]
      simp only [mapTriple, List.map_cons]
      rw [← hsf]
      rfl

/-- C3: for a session with a clip manager polling frames whose reported
file names have nonempty base names, the Move Jobs submitted (during
polling and at close) are exactly one per maximal run of equal reported
file names — each carrying the segment's base file name, its first frame's
timestamp as start and its last frame's timestamp as end — so their number
equals the count of file-name transitions between consecutive frames plus
one final submission at close when any frame was delivered, and a session
closed with no frames submits none. -/
theorem C3_move_submissions (cfg : SRConfig) (hcm : cfg.hasClipManager = true)
    (inputs : List (FrameData × Bool))
    (hin : ∀ p ∈ inputs, p.1.isRunning = true ∧ splitFilename p.1.filename ≠ "") :
    jobTriples (frameSession cfg inputs)
        = mapTriple (segJobs (inputs.map Prod.fst))
    ∧ (segJobs (inputs.map Prod.fst)).length
        = transitions (inputs.map Prod.fst)
          + (if inputs.isEmpty then 0 else 1) := by
  constructor
  · cases inputs with
    | nil =>
      simp only [frameSession, sessionTrace, List.map_nil, pollMany,
        List.nil_append]
      rw [jobTriples_close_empty cfg srOpen rfl]
      rfl
    | cons p rest =>
      obtain ⟨f, al⟩ := p
      have hf := hin (f, al) (List.mem_cons_self _ _)
      have hrest : ∀ q ∈ rest,
          q.1.isRunning = true ∧ splitFilename q.1.filename ≠ "" :=
        fun q hq => hin q (List.mem_cons_of_mem _ hq)
      have hdiff : f.filename ≠ srOpen.curFilePath :=
        fun hx => (splitFilename_ne_empty hf.2) hx
      simp only [frameSession, sessionTrace, List.map_cons, pollMany]
      rw [step_first_eval cfg srOpen f al rfl rfl hf.1 hcm hdiff rfl]
      dsimp only
      rw [show finalizeMoverThread (midStateFirst cfg srOpen f) false al
          = (midStateFirst cfg srOpen f, []) from rfl]
      dsimp only
      simp only [List.nil_append]
      rw [pollClose_jobTriples cfg hcm rest (midStateFirst cfg srOpen f)
        rfl rfl rfl hf.2 hrest]
      rfl
  · cases inputs with
    | nil => rfl
    | cons p rest =>
      simp only [List.map_cons, segJobs, List.isEmpty_cons]
      rw [segJobsAux_length, transitions_eq_transAux]
      simp

theorem C3_move_submissions_witness :
    jobTriples (frameSession cfgAllMovesFail framesClip001)
      = mapTriple (segJobs (framesClip001.map Prod.fst))
    ∧ (segJobs (framesClip001.map Prod.fst)).length
      = transitions (framesClip001.map Prod.fst) + 1 := by
  have h := C3_move_submissions cfgAllMovesFail rfl framesClip001 (by decide)
  refine ⟨h.1, ?_⟩
  rw [h.2]
  rfl
